import Mathlib

/-!
Shallow embedding of `src/rpc/src/transaction_authorization_builder.rs`
(snarkOS RPC transaction authorization builder).

The builder, the construction routine `TransactionAuthorization::new`, and
the authorization wrapper are translated from the source.  The external
scheme provider (snarkVM: address derivation, serial numbers, record
construction, the `authorize` call, and the authorization value's
serializers) is not part of this repository's `src/`; it is modelled from
the spec's external-interface contract (spec section 6) as a `Scheme`
structure of total functions, with only `authorize` and text parsing
fallible, exactly as the contract presents them.

Rust panics (from `assert!`, `assert_eq!`, indexing and `expect`) are
modelled explicitly: fallible computations land in `RustResult`, whose
`panic` constructor marks an execution that never returns normally, or in
`Option`, whose `none` plays the same role for helpers that cannot return
an error value.
-/

/-- Modelled from the spec: `Testnet1Parameters::NUM_INPUT_RECORDS`, the
fixed input arity of the scheme (spec sections 1 and 4 fix it at 2: the
builder accepts "1-2 input" requests and `build` matches on `1 | 2`). -/
def NUM_INPUT_RECORDS : Nat := 2

/-- Modelled from the spec: `Testnet1Parameters::NUM_OUTPUT_RECORDS`, the
fixed output arity of the scheme (2, symmetric to the input arity). -/
def NUM_OUTPUT_RECORDS : Nat := 2

/-- Addresses are opaque to this module; model them as `Nat`. -/
abbrev Address := Nat

/-- Private keys are opaque to this module; model them as `Nat`. -/
abbrev PrivateKey := Nat

/-- Serial numbers are opaque to this module; model them as `Nat`. -/
abbrev SerialNumber := Nat

/-- A serial-number nonce, opaque to this module. -/
abbrev Nonce := Nat

/-- A record payload: a byte sequence, opaque to this module. -/
abbrev Payload := List Nat

/-- A program identifier, opaque to this module. -/
abbrev Program := Nat

/-- A transaction memo (`[u8; 64]` in the source), modelled as a byte list. -/
abbrev Memo := List Nat

/-- The scheme-native authorization value, opaque to this module. -/
abbrev AuthNative := Nat

/-- `Payload::default()`: the all-defaults payload. -/
def defaultPayload : Payload := []

/-- Modelled from the spec: a shielded record "carries an owner address, a
value, a dummy flag, and scheme-internal commitment material" (glossary).
A record is determined by the arguments of the constructor that produced
it; the fields below are exactly those arguments (`blind` stands for the
randomness the constructor consumed). -/
structure Record where
  program : Program
  owner : Address
  isDummy : Bool
  value : Nat
  payload : Payload
  nonce : Nonce
  position : Nat
  jointSerialNumbers : List Nat
  blind : Nat
deriving DecidableEq, Repr

/-- Modelled from the spec: the provider's
`new_dummy_record(program, address, is_dummy, value, payload, nonce, rng)`
constructor (spec section 6); also the shape of ledger records the caller
supplies.  Fields not taken by this constructor get defaults. -/
def Record.new (program : Program) (owner : Address) (isDummy : Bool) (value : Nat)
    (payload : Payload) (nonce : Nonce) (blind : Nat) : Record :=
  { program := program, owner := owner, isDummy := isDummy, value := value,
    payload := payload, nonce := nonce, position := 0, jointSerialNumbers := [],
    blind := blind }

/-- Modelled from the spec: the provider's
`new_full_record(program, address, is_dummy, value, payload, slot_index,
joint_serial_number_bytes, rng)` constructor (spec section 6).  The
scheme-internal nonce of a full record is derived internally by the
provider and is not observed by this module; it gets a default here. -/
def Record.newFull (program : Program) (owner : Address) (isDummy : Bool) (value : Nat)
    (payload : Payload) (position : Nat) (jointSerialNumbers : List Nat)
    (blind : Nat) : Record :=
  { program := program, owner := owner, isDummy := isDummy, value := value,
    payload := payload, nonce := 0, position := position,
    jointSerialNumbers := jointSerialNumbers, blind := blind }

/-- The `DPCError` kinds this module produces or propagates. -/
inductive DPCError where
  | InvalidNumberOfInputs (actual max : Nat)
  | InvalidNumberOfOutputs (actual max : Nat)
  | Message (msg : String)
  | SchemeFailure (code : Nat)
deriving DecidableEq, Repr

/-- The result of a Rust computation that can return a value, return an
error, or panic (an `assert!` / `assert_eq!` / index / `expect` failure:
such an execution never returns normally). -/
inductive RustResult (α : Type) where
  | ok (val : α)
  | err (e : DPCError)
  | panic
deriving DecidableEq, Repr

/-- The caller-supplied randomness source: an entropy stream and a read
position.  Each consuming operation advances the position. -/
structure Rng where
  stream : Nat → Nat
  pos : Nat

/-- Draw one value from the randomness source. -/
def Rng.next (r : Rng) : Nat × Rng :=
  (r.stream r.pos, { r with pos := r.pos + 1 })

/-- `rng.gen::<[u8; 32]>()`: draw a fresh 32-byte seed. -/
def Rng.gen32 (r : Rng) : List Nat × Rng :=
  ((List.range 32).map (fun i => r.stream (r.pos + i) % 256),
   { r with pos := r.pos + 32 })

/-- Modelled from the spec: the external scheme provider's contract
(spec section 6).  `fromPrivateKey` is deterministic; `snNonceHash` is the
serial-number-nonce derivation (`serial_number_nonce_crh().hash`);
`toSerialNumber` returns a serial number and auxiliary data;
`snToBytesLE` is the little-endian byte encoding of a serial number
(`to_bytes_le!`); `authorize` may fail with a provider-defined error;
`writeLE` is the authorization's little-endian serialization (`none`
models a serialization failure); `toText` / `fromText` are the canonical
text codec. -/
structure Scheme where
  noopProgram : Program
  fromPrivateKey : PrivateKey → Address
  snNonceHash : List Nat → Nonce
  toSerialNumber : Record → PrivateKey → SerialNumber × Nat
  snToBytesLE : SerialNumber → List Nat
  authorize : List PrivateKey → List Record → List Record → Option Memo → Nat →
    Except DPCError AuthNative
  writeLE : AuthNative → Option (List Nat)
  toText : AuthNative → String
  fromText : String → Except DPCError AuthNative

/-- One synthesized dummy input record (body of the input-padding loop,
source lines 86-98): derive the address of the given key, hash a fresh
32-byte random seed through the serial-number-nonce derivation, and build
a dummy record (value 0, dummy flag set, default payload) under the no-op
program; the record constructor consumes one further draw for blinding. -/
def mkDummyInput (S : Scheme) (pk : PrivateKey) (rng : Rng) : Record × Rng :=
  let address := S.fromPrivateKey pk
  let (seed, rng1) := rng.gen32
  let (blind, rng2) := rng1.next
  (Record.new S.noopProgram address true 0 defaultPayload (S.snNonceHash seed) blind,
   rng2)

/-- The input-padding loop (source lines 85-99): while the record count is
below `NUM_INPUT_RECORDS`, append one dummy record owned by the first
key's address and append a copy of the first key.  `none` models the Rust
panic on indexing `private_keys[0]` when the key list is empty. -/
def padInputsLoop (S : Scheme) (privateKeys : List PrivateKey)
    (inputRecords : List Record) (rng : Rng) :
    Option (List PrivateKey × List Record × Rng) :=
  if inputRecords.length < NUM_INPUT_RECORDS then
    match privateKeys[0]? with
    | none => none
    | some pk =>
      let (rec, rng') := mkDummyInput S pk rng
      padInputsLoop S (privateKeys ++ [pk]) (inputRecords ++ [rec]) rng'
  else
    some (privateKeys, inputRecords, rng)
termination_by NUM_INPUT_RECORDS - inputRecords.length
decreasing_by simp; omega

/-- The ownership check (source lines 104-107): for every zipped
(private key, input record) pair, the address derived from the key must
equal the record's owner. -/
def ownershipHolds (S : Scheme) (privateKeys : List PrivateKey)
    (inputRecords : List Record) : Bool :=
  (privateKeys.zip inputRecords).all fun p => S.fromPrivateKey p.1 == p.2.owner

/-- Decoding the recipient data (source lines 113-120): zip recipients
with amounts; owners are the recipients, every flag is non-dummy, values
are the amounts. -/
def decodeRecipients (recipients : List Address) (recipientAmounts : List Nat) :
    List Address × List Bool × List Nat :=
  let z := recipients.zip recipientAmounts
  (z.map Prod.fst, z.map (fun _ => false), z.map Prod.snd)

/-- The output-padding loop (source lines 123-127): while the owner count
is below `NUM_OUTPUT_RECORDS`, append the first owner, a dummy flag, and
value 0.  `none` models the Rust panic on indexing `new_record_owners[0]`
when the owner list is empty. -/
def padOutputsLoop (owners : List Address) (flags : List Bool) (values : List Nat) :
    Option (List Address × List Bool × List Nat) :=
  if owners.length < NUM_OUTPUT_RECORDS then
    match owners[0]? with
    | none => none
    | some o => padOutputsLoop (owners ++ [o]) (flags ++ [true]) (values ++ [0])
  else
    some (owners, flags, values)
termination_by NUM_OUTPUT_RECORDS - owners.length
decreasing_by simp; omega

/-- The joint serial number derivation (source lines 138-142): for each
`i` in `0..NUM_INPUT_RECORDS`, compute the serial number of the `i`-th
input record under the `i`-th private key and append its little-endian
byte encoding.  `none` models the Rust panic on an out-of-bounds index. -/
def jointSerialNumberBytes (S : Scheme) (privateKeys : List PrivateKey)
    (inputRecords : List Record) : Option (List Nat) :=
  (List.range NUM_INPUT_RECORDS).foldl
    (fun acc i => do
      let a ← acc
      let r ← inputRecords[i]?
      let pk ← privateKeys[i]?
      pure (a ++ S.snToBytesLE (S.toSerialNumber r pk).1))
    (some [])

/-- The output-record construction loop (source lines 144-156): for each
`j` in `0..NUM_OUTPUT_RECORDS`, construct a full record from the no-op
program, the `j`-th owner, dummy flag and value, a default payload, the
position `(NUM_OUTPUT_RECORDS + j) as u8`, and the joint serial number
bytes; each construction consumes one blinding draw.  `none` models the
Rust panic on an out-of-bounds index. -/
def outputRecords (S : Scheme) (owners : List Address) (flags : List Bool)
    (values : List Nat) (jsn : List Nat) (rng : Rng) :
    Option (List Record × Rng) :=
  (List.range NUM_OUTPUT_RECORDS).foldl
    (fun st j => do
      let (acc, r) ← st
      let owner ← owners[j]?
      let flag ← flags[j]?
      let value ← values[j]?
      let (blind, r') := r.next
      pure (acc ++ [Record.newFull S.noopProgram owner flag value defaultPayload
        ((NUM_OUTPUT_RECORDS + j) % 256) jsn blind], r'))
    (some ([], rng))

/-- The wrapped scheme-native authorization value. -/
structure TransactionAuthorization where
  authorization : AuthNative
deriving DecidableEq, Repr

/-- The construction routine `TransactionAuthorization::new`
(source lines 57-162): assert the shape preconditions, pad the inputs,
check ownership, normalize and pad the outputs, derive the joint serial
numbers, construct the output records, and delegate to the provider's
`authorize`.  The network id is received but never used (source line 62:
`_network_id`). -/
def TransactionAuthorization.new (S : Scheme)
    (spenders : List PrivateKey) (recordsToSpend : List Record)
    (recipients : List Address) (recipientAmounts : List Nat)
    (_networkId : Nat) (memo : Option Memo) (rng : Rng) :
    RustResult TransactionAuthorization :=
  if spenders.isEmpty then .panic
  else if spenders.length ≠ recordsToSpend.length then .panic
  else if recipients.isEmpty then .panic
  else if recipients.length ≠ recipientAmounts.length then .panic
  else
    match padInputsLoop S spenders recordsToSpend rng with
    | none => .panic
    | some (privateKeys, inputRecords, rng1) =>
      if inputRecords.length ≠ NUM_INPUT_RECORDS then .panic
      else if ¬ ownershipHolds S privateKeys inputRecords then .panic
      else if privateKeys.length ≠ NUM_INPUT_RECORDS then .panic
      else
        let (owners0, flags0, values0) := decodeRecipients recipients recipientAmounts
        match padOutputsLoop owners0 flags0 values0 with
        | none => .panic
        | some (newRecordOwners, newIsDummyFlags, newValues) =>
          if newRecordOwners.length ≠ NUM_OUTPUT_RECORDS then .panic
          else if newIsDummyFlags.length ≠ NUM_OUTPUT_RECORDS then .panic
          else if newValues.length ≠ NUM_OUTPUT_RECORDS then .panic
          else
            match jointSerialNumberBytes S privateKeys inputRecords with
            | none => .panic
            | some jsn =>
              match outputRecords S newRecordOwners newIsDummyFlags newValues jsn rng1 with
              | none => .panic
              | some (outs, rng2) =>
                let (rand, _rng3) := rng2.next
                match S.authorize privateKeys inputRecords outs memo rand with
                | .ok a => .ok { authorization := a }
                | .error e => .err e

/-- `TransactionAuthorization::to_bytes` (source lines 164-170):
little-endian serialization of the wrapped value; a serialization failure
is a panic (`expect`). -/
def TransactionAuthorization.to_bytes (S : Scheme) (t : TransactionAuthorization) :
    RustResult (List Nat) :=
  match S.writeLE t.authorization with
  | some bytes => .ok bytes
  | none => .panic

/-- `FromStr for TransactionAuthorization` (source lines 173-181): parse
the scheme-native value from its canonical text form and wrap it. -/
def TransactionAuthorization.from_str (S : Scheme) (s : String) :
    Except DPCError TransactionAuthorization :=
  match S.fromText s with
  | .ok a => .ok { authorization := a }
  | .error e => .error e

/-- `Display for TransactionAuthorization` (source lines 183-187): render
the wrapped value's canonical text form. -/
def TransactionAuthorization.render (S : Scheme) (t : TransactionAuthorization) :
    String :=
  S.toText t.authorization

/-- A transaction input: a spender key paired with the record it spends. -/
structure TransactionInput where
  private_key : PrivateKey
  record : Record
deriving DecidableEq, Repr

/-- A transaction output: a recipient address paired with an amount. -/
structure TransactionOutput where
  recipient : Address
  amount : Nat
deriving DecidableEq, Repr

/-- The builder (source lines 190-200). -/
structure TransactionAuthorizationBuilder where
  inputs : List TransactionInput
  outputs : List TransactionOutput
  network_id : Nat
  memo : Option Memo
deriving DecidableEq, Repr

/-- `TransactionAuthorizationBuilder::add_input` (source lines 217-238):
reject when the existing input count strictly exceeds
`NUM_INPUT_RECORDS`, otherwise append. -/
def TransactionAuthorizationBuilder.add_input (b : TransactionAuthorizationBuilder)
    (private_key : PrivateKey) (record : Record) :
    Except DPCError TransactionAuthorizationBuilder :=
  if b.inputs.length > NUM_INPUT_RECORDS then
    .error (.InvalidNumberOfInputs (b.inputs.length + 1) NUM_INPUT_RECORDS)
  else
    .ok { b with inputs := b.inputs ++ [{ private_key := private_key, record := record }] }

/-- `TransactionAuthorizationBuilder::add_output` (source lines 244-261):
reject when the existing output count strictly exceeds
`NUM_OUTPUT_RECORDS`, otherwise append. -/
def TransactionAuthorizationBuilder.add_output (b : TransactionAuthorizationBuilder)
    (recipient : Address) (amount : Nat) :
    Except DPCError TransactionAuthorizationBuilder :=
  if b.outputs.length > NUM_OUTPUT_RECORDS then
    .error (.InvalidNumberOfOutputs (b.outputs.length + 1) NUM_OUTPUT_RECORDS)
  else
    .ok { b with outputs := b.outputs ++ [{ recipient := recipient, amount := amount }] }

/-- `TransactionAuthorizationBuilder::network_id` (source lines 266-270);
named `with_network_id` here because the Lean field and method namespaces
coincide. -/
def TransactionAuthorizationBuilder.with_network_id (b : TransactionAuthorizationBuilder)
    (network_id : Nat) : TransactionAuthorizationBuilder :=
  { b with network_id := network_id }

/-- `TransactionAuthorizationBuilder::memo` (source lines 275-279); named
`with_memo` here because the Lean field and method namespaces coincide. -/
def TransactionAuthorizationBuilder.with_memo (b : TransactionAuthorizationBuilder)
    (memo : Memo) : TransactionAuthorizationBuilder :=
  { b with memo := some memo }

/-- `TransactionAuthorizationBuilder::build` (source lines 287-343):
validate the input count against the literal pattern `1 | 2`, reject zero
outputs with the distinct "missing outputs" message, validate the output
count against the literal pattern `1 | 2` — the source's overflow branch
returns `InvalidNumberOfInputs` with `NUM_INPUT_RECORDS`, under a binder
named `num_inputs`, exactly as written at source lines 307-312 — then
unpack the inputs and outputs and delegate to the construction routine. -/
def TransactionAuthorizationBuilder.build (b : TransactionAuthorizationBuilder)
    (S : Scheme) (rng : Rng) : RustResult TransactionAuthorization :=
  match b.inputs.length with
  | 1 | 2 =>
    match b.outputs.length with
    | 0 => .err (.Message "Transaction authorization is missing outputs")
    | 1 | 2 =>
      TransactionAuthorization.new S
        (b.inputs.map TransactionInput.private_key)
        (b.inputs.map TransactionInput.record)
        (b.outputs.map TransactionOutput.recipient)
        (b.outputs.map TransactionOutput.amount)
        b.network_id b.memo rng
    | numInputs => .err (.InvalidNumberOfInputs numInputs NUM_INPUT_RECORDS)
  | numInputs => .err (.InvalidNumberOfInputs numInputs NUM_INPUT_RECORDS)

/-! ## Characterization lemmas for the padding and construction loops -/

lemma padInputsLoop_at_max (S : Scheme) (pks : List PrivateKey) (recs : List Record)
    (rng : Rng) (h : NUM_INPUT_RECORDS ≤ recs.length) :
    padInputsLoop S pks recs rng = some (pks, recs, rng) := by
  unfold padInputsLoop
  simp [Nat.not_lt.mpr h]

lemma padInputsLoop_step (S : Scheme) (pk : PrivateKey) (pks : List PrivateKey)
    (recs : List Record) (rng : Rng) (h : recs.length < NUM_INPUT_RECORDS) :
    padInputsLoop S (pk :: pks) recs rng =
      padInputsLoop S ((pk :: pks) ++ [pk]) (recs ++ [(mkDummyInput S pk rng).1])
        (mkDummyInput S pk rng).2 := by
  rcases hmk : mkDummyInput S pk rng with ⟨d, rng'⟩
  conv_lhs => rw [padInputsLoop]
  simp [h, hmk]

lemma padInputsLoop_singleton (S : Scheme) (pk : PrivateKey) (r : Record) (rng : Rng) :
    padInputsLoop S [pk] [r] rng =
      some ([pk, pk], [r, (mkDummyInput S pk rng).1], (mkDummyInput S pk rng).2) := by
  rw [padInputsLoop_step S pk [] [r] rng (by simp [NUM_INPUT_RECORDS])]
  exact padInputsLoop_at_max S _ _ _ (by simp [NUM_INPUT_RECORDS])

lemma padOutputsLoop_at_max (owners : List Address) (flags : List Bool)
    (values : List Nat) (h : NUM_OUTPUT_RECORDS ≤ owners.length) :
    padOutputsLoop owners flags values = some (owners, flags, values) := by
  unfold padOutputsLoop
  simp [Nat.not_lt.mpr h]

lemma padOutputsLoop_step (o : Address) (owners : List Address) (flags : List Bool)
    (values : List Nat) (h : (o :: owners).length < NUM_OUTPUT_RECORDS) :
    padOutputsLoop (o :: owners) flags values =
      padOutputsLoop ((o :: owners) ++ [o]) (flags ++ [true]) (values ++ [0]) := by
  rw [padOutputsLoop.eq_def, if_pos h]
  simp

lemma padOutputsLoop_singleton (o : Address) (f : Bool) (v : Nat) :
    padOutputsLoop [o] [f] [v] = some ([o, o], [f, true], [v, 0]) := by
  rw [padOutputsLoop_step o [] [f] [v] (by simp [NUM_OUTPUT_RECORDS])]
  exact padOutputsLoop_at_max _ _ _ (by simp [NUM_OUTPUT_RECORDS])

lemma mkDummyInput_fst (S : Scheme) (pk : PrivateKey) (rng : Rng) :
    (mkDummyInput S pk rng).1 =
      Record.new S.noopProgram (S.fromPrivateKey pk) true 0 defaultPayload
        (S.snNonceHash (rng.gen32.1)) (rng.gen32.2.next.1) := by
  simp [mkDummyInput]

lemma jointSerialNumberBytes_pair (S : Scheme) (pk₁ pk₂ : PrivateKey) (r₁ r₂ : Record) :
    jointSerialNumberBytes S [pk₁, pk₂] [r₁, r₂] =
      some (S.snToBytesLE (S.toSerialNumber r₁ pk₁).1 ++
        S.snToBytesLE (S.toSerialNumber r₂ pk₂).1) := by
  simp [jointSerialNumberBytes, NUM_INPUT_RECORDS, List.range_succ]

lemma outputRecords_pair (S : Scheme) (o₁ o₂ : Address) (f₁ f₂ : Bool) (v₁ v₂ : Nat)
    (jsn : List Nat) (rng : Rng) :
    outputRecords S [o₁, o₂] [f₁, f₂] [v₁, v₂] jsn rng =
      some ([Record.newFull S.noopProgram o₁ f₁ v₁ defaultPayload 2 jsn rng.next.1,
             Record.newFull S.noopProgram o₂ f₂ v₂ defaultPayload 3 jsn rng.next.2.next.1],
            rng.next.2.next.2) := by
  simp [outputRecords, NUM_OUTPUT_RECORDS, List.range_succ, Rng.next]

/-! ## A concrete scheme instance and sample values, used to exercise the
theorems on executable inputs -/

/-- A concrete scheme provider instance. -/
def triv : Scheme where
  noopProgram := 0
  fromPrivateKey := fun pk => pk + 100
  snNonceHash := fun seed => seed.foldl (fun a b => a + b) 0
  toSerialNumber := fun r pk => (r.owner + pk, 0)
  snToBytesLE := fun sn => [sn % 256, sn / 256]
  authorize := fun _ _ _ _ rand => .ok rand
  writeLE := fun a => some [a]
  toText := fun a => { data := List.replicate a 'a' }
  fromText := fun s => .ok s.data.length

/-- A deterministic randomness source for concrete runs. -/
def rng0 : Rng where
  stream := fun i => i
  pos := 0

/-- A sample ledger record owned by the address of private key 7 under
`triv`. -/
def wr7 : Record := Record.new 0 107 false 10 [] 0 0

/-- A second sample ledger record owned by the address of private key 8
under `triv`. -/
def wr8 : Record := Record.new 0 108 false 20 [] 0 0

/-! ## Claim theorems -/

/-- C1: this evaluates `build` at its failing input.  At a builder holding
one input and three outputs (a state reachable through the public API,
since `add_output` only rejects appends once the count already exceeds
`NUM_OUTPUT_RECORDS`), the output-count overflow branch of `build` returns
the *input*-count error kind `InvalidNumberOfInputs 3 NUM_INPUT_RECORDS`,
not the output-count kind `InvalidNumberOfOutputs` that the claim (and
spec section 7) names. -/
theorem C1_build_output_overflow_returns_input_error_kind :
    TransactionAuthorizationBuilder.build
      { inputs := [{ private_key := 7, record := wr7 }],
        outputs := [{ recipient := 1, amount := 1 }, { recipient := 2, amount := 2 },
                    { recipient := 3, amount := 3 }],
        network_id := 1, memo := none } triv rng0
      = .err (DPCError.InvalidNumberOfInputs 3 NUM_INPUT_RECORDS) := rfl

/-- C6: `add_input` (and symmetrically `add_output`) rejects an append
exactly when the existing element count strictly exceeds the maximum, so
an append at exactly the maximum still succeeds; the rejection carries
`current_count + 1` and the maximum, and on success the element is
appended to the returned builder. -/
theorem C6_add_input_add_output_bounds (b : TransactionAuthorizationBuilder)
    (pk : PrivateKey) (r : Record) (addr : Address) (amount : Nat) :
    (NUM_INPUT_RECORDS < b.inputs.length →
      b.add_input pk r =
        .error (.InvalidNumberOfInputs (b.inputs.length + 1) NUM_INPUT_RECORDS))
    ∧ (b.inputs.length ≤ NUM_INPUT_RECORDS →
      b.add_input pk r =
        .ok { b with inputs := b.inputs ++ [{ private_key := pk, record := r }] })
    ∧ (NUM_OUTPUT_RECORDS < b.outputs.length →
      b.add_output addr amount =
        .error (.InvalidNumberOfOutputs (b.outputs.length + 1) NUM_OUTPUT_RECORDS))
    ∧ (b.outputs.length ≤ NUM_OUTPUT_RECORDS →
      b.add_output addr amount =
        .ok { b with outputs := b.outputs ++ [{ recipient := addr, amount := amount }] }) := by
  refine ⟨fun h => ?_, fun h => ?_, fun h => ?_, fun h => ?_⟩ <;>
    simp [TransactionAuthorizationBuilder.add_input,
      TransactionAuthorizationBuilder.add_output, h, Nat.not_lt.mpr h]

/-- C6 witness: at the maximum input count (2) an append still succeeds;
at count 3 the append is rejected with the count error carrying 4 and the
maximum. -/
theorem C6_add_input_add_output_bounds_witness :
    TransactionAuthorizationBuilder.add_input
      { inputs := [{ private_key := 7, record := wr7 }, { private_key := 8, record := wr8 }],
        outputs := [], network_id := 1, memo := none } 7 wr7
      = .ok { inputs := [{ private_key := 7, record := wr7 }, { private_key := 8, record := wr8 },
                { private_key := 7, record := wr7 }],
              outputs := [], network_id := 1, memo := none }
    ∧ TransactionAuthorizationBuilder.add_output
        { inputs := [],
          outputs := [{ recipient := 1, amount := 1 }, { recipient := 2, amount := 2 },
            { recipient := 3, amount := 3 }],
          network_id := 1, memo := none } 4 4
      = .error (.InvalidNumberOfOutputs 4 NUM_OUTPUT_RECORDS) :=
  ⟨(C6_add_input_add_output_bounds
      { inputs := [{ private_key := 7, record := wr7 }, { private_key := 8, record := wr8 }],
        outputs := [], network_id := 1, memo := none } 7 wr7 0 0).2.1 (by decide),
   (C6_add_input_add_output_bounds
      { inputs := [],
        outputs := [{ recipient := 1, amount := 1 }, { recipient := 2, amount := 2 },
          { recipient := 3, amount := 3 }],
        network_id := 1, memo := none } 0 wr7 4 4).2.2.1 (by decide)⟩

/-- C9: rendering an authorization to its canonical text form and parsing
that text back yields a value whose byte serialization equals the
original's.  The scheme-native text codec is external to this repository;
its round-trip law (spec sections 6 and 8) is the hypothesis `hcodec`. -/
theorem C9_text_round_trip (S : Scheme)
    (hcodec : ∀ a, S.fromText (S.toText a) = .ok a) (t : TransactionAuthorization) :
    ∃ t', TransactionAuthorization.from_str S (TransactionAuthorization.render S t) = .ok t'
      ∧ TransactionAuthorization.to_bytes S t' = TransactionAuthorization.to_bytes S t := by
  refine ⟨⟨t.authorization⟩, ?_, rfl⟩
  simp [TransactionAuthorization.from_str, TransactionAuthorization.render, hcodec]

/-- C9 witness: the round trip at a concrete authorization under the
concrete codec of `triv`. -/
theorem C9_text_round_trip_witness :
    ∃ t', TransactionAuthorization.from_str triv
        (TransactionAuthorization.render triv { authorization := 42 }) = .ok t'
      ∧ TransactionAuthorization.to_bytes triv t'
          = TransactionAuthorization.to_bytes triv { authorization := 42 } :=
  C9_text_round_trip triv (fun a => by simp [triv]) { authorization := 42 }

/-- C10: the authorization produced is independent of the builder's
network id: two builder states differing only in `network_id`, run with
the same randomness source state, build identical results, because the
construction routine receives but never uses the network identifier. -/
theorem C10_network_id_independent (S : Scheme) (b : TransactionAuthorizationBuilder)
    (n₁ n₂ : Nat) (rng : Rng) :
    (b.with_network_id n₁).build S rng = (b.with_network_id n₂).build S rng := rfl

/-- C2: in the construction routine, the joint serial number byte string
equals the concatenation, in input order over all `NUM_INPUT_RECORDS`
padded input records, of the little-endian byte encoding of each record's
serial number computed under its paired private key; and every one of the
`NUM_OUTPUT_RECORDS` constructed output records is built from this exact
same byte string. -/
theorem C2_joint_serial_numbers (S : Scheme) (pks : List PrivateKey) (recs : List Record)
    (owners : List Address) (flags : List Bool) (values : List Nat) (rng : Rng)
    (hp : pks.length = NUM_INPUT_RECORDS) (hr : recs.length = NUM_INPUT_RECORDS)
    (ho : owners.length = NUM_OUTPUT_RECORDS) (hf : flags.length = NUM_OUTPUT_RECORDS)
    (hv : values.length = NUM_OUTPUT_RECORDS) :
    jointSerialNumberBytes S pks recs =
      some (((pks.zip recs).map fun p => S.snToBytesLE (S.toSerialNumber p.2 p.1).1).flatten)
    ∧ ∀ jsn out rng', jointSerialNumberBytes S pks recs = some jsn →
        outputRecords S owners flags values jsn rng = some (out, rng') →
        out.length = NUM_OUTPUT_RECORDS ∧ ∀ r ∈ out, r.jointSerialNumbers = jsn := by
  obtain ⟨pk₁, pk₂, rfl⟩ := List.length_eq_two.mp (by simpa [NUM_INPUT_RECORDS] using hp)
  obtain ⟨r₁, r₂, rfl⟩ := List.length_eq_two.mp (by simpa [NUM_INPUT_RECORDS] using hr)
  obtain ⟨o₁, o₂, rfl⟩ := List.length_eq_two.mp (by simpa [NUM_OUTPUT_RECORDS] using ho)
  obtain ⟨f₁, f₂, rfl⟩ := List.length_eq_two.mp (by simpa [NUM_OUTPUT_RECORDS] using hf)
  obtain ⟨v₁, v₂, rfl⟩ := List.length_eq_two.mp (by simpa [NUM_OUTPUT_RECORDS] using hv)
  refine ⟨by simp [jointSerialNumberBytes_pair], ?_⟩
  intro jsn out rng' h1 h2
  rw [outputRecords_pair] at h2
  simp only [Option.some.injEq, Prod.mk.injEq] at h2
  obtain ⟨rfl, rfl⟩ := h2
  constructor
  · simp [NUM_OUTPUT_RECORDS]
  · intro r hmem
    simp only [List.mem_cons, List.mem_singleton, List.not_mem_nil, or_false] at hmem
    rcases hmem with rfl | rfl <;> simp [Record.newFull]

/-- C2 witness: the joint serial number bytes at a concrete padded input
set equal the concatenated little-endian serial number encodings. -/
theorem C2_joint_serial_numbers_witness :
    jointSerialNumberBytes triv [7, 8] [wr7, wr8] =
      some (((([7, 8] : List PrivateKey).zip [wr7, wr8]).map fun p =>
        triv.snToBytesLE (triv.toSerialNumber p.2 p.1).1).flatten) :=
  (C2_joint_serial_numbers triv [7, 8] [wr7, wr8] [3, 4] [false, true] [5, 0] rng0
    (by decide) (by decide) (by decide) (by decide) (by decide)).1

/-- C3: for every valid original shape (1 to `NUM_INPUT_RECORDS` inputs,
1 to `NUM_OUTPUT_RECORDS` outputs), the padding phase succeeds, the padded
input-record and private-key lists both have length exactly
`NUM_INPUT_RECORDS`, and the padded owner, dummy-flag and value lists all
have length exactly `NUM_OUTPUT_RECORDS`. -/
theorem C3_padding_lengths (S : Scheme) (pks : List PrivateKey) (recs : List Record)
    (owners : List Address) (flags : List Bool) (values : List Nat) (rng : Rng)
    (hlen : pks.length = recs.length) (hr1 : 1 ≤ recs.length)
    (hr2 : recs.length ≤ NUM_INPUT_RECORDS)
    (ho1 : 1 ≤ owners.length) (ho2 : owners.length ≤ NUM_OUTPUT_RECORDS)
    (hf : flags.length = owners.length) (hv : values.length = owners.length) :
    Option.map (fun t => (t.1.length, t.2.1.length)) (padInputsLoop S pks recs rng)
      = some (NUM_INPUT_RECORDS, NUM_INPUT_RECORDS)
    ∧ Option.map (fun t => (t.1.length, t.2.1.length, t.2.2.length))
        (padOutputsLoop owners flags values)
      = some (NUM_OUTPUT_RECORDS, NUM_OUTPUT_RECORDS, NUM_OUTPUT_RECORDS) := by
  constructor
  · have h12 : recs.length = 1 ∨ recs.length = 2 := by
      simp [NUM_INPUT_RECORDS] at hr2; omega
    rcases h12 with h | h
    · obtain ⟨r, rfl⟩ := List.length_eq_one.mp h
      obtain ⟨pk, rfl⟩ := List.length_eq_one.mp (by simpa using hlen)
      rw [padInputsLoop_singleton]
      simp [NUM_INPUT_RECORDS]
    · rw [padInputsLoop_at_max S pks recs rng (by simp [NUM_INPUT_RECORDS, h])]
      simp only [Option.map_some', Option.some.injEq, Prod.mk.injEq, NUM_INPUT_RECORDS]
      omega
  · have h12 : owners.length = 1 ∨ owners.length = 2 := by
      simp [NUM_OUTPUT_RECORDS] at ho2; omega
    rcases h12 with h | h
    · obtain ⟨o, rfl⟩ := List.length_eq_one.mp h
      obtain ⟨f, rfl⟩ := List.length_eq_one.mp (by simpa using hf)
      obtain ⟨v, rfl⟩ := List.length_eq_one.mp (by simpa using hv)
      rw [padOutputsLoop_singleton]
      simp [NUM_OUTPUT_RECORDS]
    · rw [padOutputsLoop_at_max owners flags values (by simp [NUM_OUTPUT_RECORDS, h])]
      simp only [Option.map_some', Option.some.injEq, Prod.mk.injEq, NUM_OUTPUT_RECORDS]
      omega

/-- C3 witness: padding a one-input, one-output shape reaches exactly the
fixed arities. -/
theorem C3_padding_lengths_witness :
    Option.map (fun t => (t.1.length, t.2.1.length)) (padInputsLoop triv [7] [wr7] rng0)
      = some (NUM_INPUT_RECORDS, NUM_INPUT_RECORDS)
    ∧ Option.map (fun t => (t.1.length, t.2.1.length, t.2.2.length))
        (padOutputsLoop [3] [false] [5])
      = some (NUM_OUTPUT_RECORDS, NUM_OUTPUT_RECORDS, NUM_OUTPUT_RECORDS) :=
  C3_padding_lengths triv [7] [wr7] [3] [false] [5] rng0 (by decide) (by decide)
    (by decide) (by decide) (by decide) (by decide) (by decide)

/-- C4: every dummy input record synthesized by padding has value zero, is
flagged dummy, is owned by the address derived from the first spender's
private key, is built under the no-op program, has its serial-number
nonce produced by hashing a fresh 32-byte random seed through the
scheme's serial-number-nonce derivation function, and is paired with a
duplicated copy of the first spender's private key appended to the key
list. -/
theorem C4_dummy_input_records (S : Scheme) (pks : List PrivateKey) (recs : List Record)
    (rng : Rng) (hlen : pks.length = recs.length) (h1 : 1 ≤ recs.length)
    (h2 : recs.length ≤ NUM_INPUT_RECORDS) :
    ∃ dummies : List (PrivateKey × Record), ∃ rng',
      padInputsLoop S pks recs rng =
        some (pks ++ dummies.map Prod.fst, recs ++ dummies.map Prod.snd, rng')
      ∧ ∀ p ∈ dummies,
          p.1 = pks.headI
          ∧ p.2.value = 0
          ∧ p.2.isDummy = true
          ∧ p.2.owner = S.fromPrivateKey pks.headI
          ∧ p.2.program = S.noopProgram
          ∧ ∃ seed, seed.length = 32 ∧ p.2.nonce = S.snNonceHash seed := by
  have h12 : recs.length = 1 ∨ recs.length = 2 := by
    simp [NUM_INPUT_RECORDS] at h2; omega
  rcases h12 with h | h
  · obtain ⟨r, rfl⟩ := List.length_eq_one.mp h
    obtain ⟨pk, rfl⟩ := List.length_eq_one.mp (by simpa using hlen)
    refine ⟨[(pk, (mkDummyInput S pk rng).1)], (mkDummyInput S pk rng).2, ?_, ?_⟩
    · simpa using padInputsLoop_singleton S pk r rng
    · intro p hp
      simp only [List.mem_singleton] at hp
      subst hp
      refine ⟨rfl, ?_, ?_, ?_, ?_, ⟨rng.gen32.1, ?_, ?_⟩⟩ <;>
        simp [mkDummyInput_fst, Record.new, Rng.gen32, List.headI]
  · refine ⟨[], rng, ?_, by simp⟩
    simpa using padInputsLoop_at_max S pks recs rng (by simp [NUM_INPUT_RECORDS, h])

/-- C4 witness: padding the concrete one-input shape appends one dummy
pair with all the claimed properties. -/
theorem C4_dummy_input_records_witness :
    ∃ dummies : List (PrivateKey × Record), ∃ rng',
      padInputsLoop triv [7] [wr7] rng0 =
        some ([7] ++ dummies.map Prod.fst, [wr7] ++ dummies.map Prod.snd, rng')
      ∧ ∀ p ∈ dummies,
          p.1 = ([7] : List PrivateKey).headI
          ∧ p.2.value = 0
          ∧ p.2.isDummy = true
          ∧ p.2.owner = triv.fromPrivateKey (([7] : List PrivateKey).headI)
          ∧ p.2.program = triv.noopProgram
          ∧ ∃ seed, seed.length = 32 ∧ p.2.nonce = triv.snNonceHash seed :=
  C4_dummy_input_records triv [7] [wr7] rng0 (by decide) (by decide) (by decide)

/-- C5: output normalization keeps the real recipient/amount pairs in
their given order, each tagged non-dummy, and every padded dummy output
slot has owner equal to the first recipient's address, value zero, and
the dummy flag set. -/
theorem C5_output_normalization (recipients : List Address) (amounts : List Nat)
    (h1 : 1 ≤ recipients.length) (h2 : recipients.length ≤ NUM_OUTPUT_RECORDS)
    (hlen : recipients.length = amounts.length) :
    decodeRecipients recipients amounts =
      (recipients, List.replicate recipients.length false, amounts)
    ∧ ∃ k, padOutputsLoop recipients (List.replicate recipients.length false) amounts =
        some (recipients ++ List.replicate k recipients.headI,
          List.replicate recipients.length false ++ List.replicate k true,
          amounts ++ List.replicate k 0) := by
  constructor
  · unfold decodeRecipients
    simp [List.map_fst_zip recipients amounts hlen.le,
      List.map_snd_zip recipients amounts hlen.ge, hlen]
  · have h12 : recipients.length = 1 ∨ recipients.length = 2 := by
      simp [NUM_OUTPUT_RECORDS] at h2; omega
    rcases h12 with h | h
    · obtain ⟨a, rfl⟩ := List.length_eq_one.mp h
      obtain ⟨v, rfl⟩ := List.length_eq_one.mp (by simpa using hlen.symm)
      exact ⟨1, by simpa using padOutputsLoop_singleton a false v⟩
    · refine ⟨0, ?_⟩
      simpa using padOutputsLoop_at_max recipients
        (List.replicate recipients.length false) amounts (by simp [NUM_OUTPUT_RECORDS, h])

/-- C5 witness: normalizing one concrete recipient/amount pair keeps it in
order tagged non-dummy and pads one dummy slot reusing the first
recipient's address with value zero. -/
theorem C5_output_normalization_witness :
    decodeRecipients [3] [5] =
      (([3] : List Address), List.replicate ([3] : List Address).length false, ([5] : List Nat))
    ∧ ∃ k, padOutputsLoop [3] (List.replicate ([3] : List Address).length false) [5] =
        some (([3] : List Address) ++ List.replicate k (([3] : List Address)).headI,
          List.replicate ([3] : List Address).length false ++ List.replicate k true,
          ([5] : List Nat) ++ List.replicate k 0) :=
  C5_output_normalization [3] [5] (by decide) (by decide) (by decide)

/-- C7: after padding, the construction routine checks every
(private key, input record) pair in order: if the address derived from
the key differs from the record's owner it faults fatally (the routine
ends in a panic, never a successful authorization); and under the
precondition that every caller-supplied real pair satisfies
`address_of(key) = owner(record)`, the padded pairs all satisfy
ownership — the dummy pairs by construction — so the fault branch is
unreachable. -/
theorem C7_ownership_check (S : Scheme) (spenders : List PrivateKey)
    (records : List Record) (recipients : List Address) (amounts : List Nat)
    (nid : Nat) (memo : Option Memo) (rng : Rng) :
    (∀ pks recs rng1, padInputsLoop S spenders records rng = some (pks, recs, rng1) →
        ownershipHolds S pks recs = false →
        TransactionAuthorization.new S spenders records recipients amounts nid memo rng
          = .panic)
    ∧ (spenders.length = records.length →
        (∀ p ∈ spenders.zip records, S.fromPrivateKey p.1 = p.2.owner) →
        ∀ pks recs rng1, padInputsLoop S spenders records rng = some (pks, recs, rng1) →
          ownershipHolds S pks recs = true) := by
  constructor
  · intro pks recs rng1 hpad hown
    unfold TransactionAuthorization.new
    rw [hpad]
    by_cases h1 : spenders.isEmpty
    · rw [if_pos h1]
    rw [if_neg h1]
    by_cases h2 : spenders.length ≠ records.length
    · rw [if_pos h2]
    rw [if_neg h2]
    by_cases h3 : recipients.isEmpty
    · rw [if_pos h3]
    rw [if_neg h3]
    by_cases h4 : recipients.length ≠ amounts.length
    · rw [if_pos h4]
    rw [if_neg h4]
    simp only
    by_cases h5 : recs.length ≠ NUM_INPUT_RECORDS
    · rw [if_pos h5]
    rw [if_neg h5, if_pos (by simp [hown])]
  · intro hlen hzip pks recs rng1 hpad
    rcases Nat.lt_or_ge records.length NUM_INPUT_RECORDS with h | h
    · have h01 : records.length = 0 ∨ records.length = 1 := by
        simp [NUM_INPUT_RECORDS] at h; omega
      rcases h01 with h0 | h0
      · obtain rfl : records = [] := List.length_eq_zero.mp h0
        obtain rfl : spenders = [] := List.length_eq_zero.mp (by simpa using hlen)
        rw [padInputsLoop] at hpad
        simp [NUM_INPUT_RECORDS] at hpad
      · obtain ⟨r, rfl⟩ := List.length_eq_one.mp h0
        obtain ⟨pk, rfl⟩ := List.length_eq_one.mp (by simpa using hlen)
        rw [padInputsLoop_singleton] at hpad
        simp only [Option.some.injEq, Prod.mk.injEq] at hpad
        obtain ⟨rfl, rfl, rfl⟩ := hpad
        have hr : S.fromPrivateKey pk = r.owner := by
          simpa using hzip (pk, r) (by simp)
        simp [ownershipHolds, hr, mkDummyInput_fst, Record.new]
    · rw [padInputsLoop_at_max S spenders records rng h] at hpad
      simp only [Option.some.injEq, Prod.mk.injEq] at hpad
      obtain ⟨rfl, rfl, rfl⟩ := hpad
      simp only [ownershipHolds, List.all_eq_true]
      intro p hp
      simpa using hzip p hp

/-- C7 witness: the padded pairs of a concrete one-input run — the real
pair and the synthesized dummy pair — all pass the ownership check. -/
theorem C7_ownership_check_witness :
    ownershipHolds triv [7, 7] [wr7, (mkDummyInput triv 7 rng0).1] = true :=
  (C7_ownership_check triv [7] [wr7] [3] [5] 1 none rng0).2 (by decide) (by decide)
    [7, 7] [wr7, (mkDummyInput triv 7 rng0).1] (mkDummyInput triv 7 rng0).2
    (padInputsLoop_singleton triv 7 wr7 rng0)

/-- C8: for every output slot `j` below `NUM_OUTPUT_RECORDS`, the `j`-th
constructed output record is built with the no-op program, the `j`-th
normalized owner, dummy flag and value, an empty payload, the joint
serial number bytes, and the position index `NUM_INPUT_RECORDS + j`,
continuing numerically after the input slots. -/
theorem C8_output_record_construction (S : Scheme) (owners : List Address)
    (flags : List Bool) (values : List Nat) (jsn : List Nat) (rng : Rng) (j : Nat)
    (ho : owners.length = NUM_OUTPUT_RECORDS) (hf : flags.length = NUM_OUTPUT_RECORDS)
    (hv : values.length = NUM_OUTPUT_RECORDS) (hj : j < NUM_OUTPUT_RECORDS) :
    ∃ out rng' r, outputRecords S owners flags values jsn rng = some (out, rng')
      ∧ out.length = NUM_OUTPUT_RECORDS
      ∧ out[j]? = some r
      ∧ r.program = S.noopProgram
      ∧ owners[j]? = some r.owner
      ∧ flags[j]? = some r.isDummy
      ∧ values[j]? = some r.value
      ∧ r.payload = []
      ∧ r.jointSerialNumbers = jsn
      ∧ r.position = NUM_INPUT_RECORDS + j := by
  obtain ⟨o₁, o₂, rfl⟩ := List.length_eq_two.mp (by simpa [NUM_OUTPUT_RECORDS] using ho)
  obtain ⟨f₁, f₂, rfl⟩ := List.length_eq_two.mp (by simpa [NUM_OUTPUT_RECORDS] using hf)
  obtain ⟨v₁, v₂, rfl⟩ := List.length_eq_two.mp (by simpa [NUM_OUTPUT_RECORDS] using hv)
  have hj' : j = 0 ∨ j = 1 := by simp [NUM_OUTPUT_RECORDS] at hj; omega
  rcases hj' with rfl | rfl
  · refine ⟨_, _, Record.newFull S.noopProgram o₁ f₁ v₁ defaultPayload 2 jsn rng.next.1,
      outputRecords_pair S o₁ o₂ f₁ f₂ v₁ v₂ jsn rng,
      ?_, ?_, ?_, ?_, ?_, ?_, ?_, ?_, ?_⟩ <;>
      simp [Record.newFull, NUM_OUTPUT_RECORDS, NUM_INPUT_RECORDS, defaultPayload]
  · refine ⟨_, _, Record.newFull S.noopProgram o₂ f₂ v₂ defaultPayload 3 jsn
        rng.next.2.next.1,
      outputRecords_pair S o₁ o₂ f₁ f₂ v₁ v₂ jsn rng,
      ?_, ?_, ?_, ?_, ?_, ?_, ?_, ?_, ?_⟩ <;>
      simp [Record.newFull, NUM_OUTPUT_RECORDS, NUM_INPUT_RECORDS, defaultPayload]

/-- C8 witness: the second output slot of a concrete run carries the no-op
program, the second normalized descriptor, an empty payload, the joint
serial number bytes, and position `NUM_INPUT_RECORDS + 1`. -/
theorem C8_output_record_construction_witness :
    ∃ out rng' r, outputRecords triv [3, 4] [false, true] [5, 0] [9, 9] rng0
        = some (out, rng')
      ∧ out.length = NUM_OUTPUT_RECORDS
      ∧ out[1]? = some r
      ∧ r.program = triv.noopProgram
      ∧ (([3, 4] : List Address))[1]? = some r.owner
      ∧ (([false, true] : List Bool))[1]? = some r.isDummy
      ∧ (([5, 0] : List Nat))[1]? = some r.value
      ∧ r.payload = []
      ∧ r.jointSerialNumbers = [9, 9]
      ∧ r.position = NUM_INPUT_RECORDS + 1 :=
  C8_output_record_construction triv [3, 4] [false, true] [5, 0] [9, 9] rng0 1
    (by decide) (by decide) (by decide) (by decide)
